import Mathlib

/-!
Verification of the Diagnosis Code Reconciliation Engine of src/app.py.

The Python source is shallowly embedded: each dict-shaped record becomes a
structure whose optional fields model optional dict keys (a value of none
models an absent key), Python lists become Lean lists, Python sets become
finsets, the Python dict used as a code-to-severity mapping becomes an
association list with insertion-order keys, and the try/except wrapper of
calculate_account_statistics becomes an Except-valued core together with a
total wrapper that returns the sentinel statistics on error.
-/

namespace SdxAudit

/-! ## Code Matcher, from check_sdx_match (src/app.py lines 922-949)

The source extracts the reference codes from the per-account ground-truth SDX
rows and then classifies a candidate code against that list of strings.  The
classification core below takes the extracted list of reference codes
directly.  Python string operations map as follows: s[:-1] is dropRight 1,
s.startswith(t) means the character list of t is a prefix of that of s
(pyStartswith), len(s) is String.length, and str.upper is the character-wise
upper-casing pyUpper.  The character-list forms are used because they evaluate
inside the kernel on concrete inputs.
-/

/-- Python s.upper(): upper-case every character. -/
def pyUpper (s : String) : String :=
  ⟨s.data.map Char.toUpper⟩

/-- Python s.startswith(t): the characters of t are a prefix of those of s. -/
def pyStartswith (s t : String) : Bool :=
  t.data.isPrefixOf s.data

/-- Specificity condition tested for one reference code inside the scan loop of
check_sdx_match (lines 937-944): both lengths exceed 1 and either dropping the
final character of both gives equal strings, or one code is a prefix of the
other.  The same inline conditions appear again in create_cc_mcc_comparison_data
(lines 894-907). -/
def sdxSpecCond (icd_code gt_code : String) : Bool :=
  icd_code.length > 1 && gt_code.length > 1 &&
    (icd_code.dropRight 1 == gt_code.dropRight 1
      || pyStartswith icd_code gt_code || pyStartswith gt_code icd_code)

/-- Embedding of check_sdx_match (lines 922-949), classification core over the
already-extracted list of reference codes.  The early return at the first
specificity hit is result-equivalent to List.any because every hit returns the
same string. -/
def check_sdx_match (icd_code : String) (ground_truth_codes : List String) : String :=
  if icd_code == "" || ground_truth_codes.isEmpty then "SDX Mismatch"
  else if ground_truth_codes.contains icd_code then "SDX Match"
  else if ground_truth_codes.any (fun gt_code => sdxSpecCond icd_code gt_code) then
    "Specificity Issue"
  else "SDX Mismatch"

/-! ## Spec-side Code Matcher (spec section 4.2)

Modelled from the spec words, to be compared with the source embedding above:
a four-step classifier together with the reference code that produced the
classification. -/

/-- Match classification of spec section 3. -/
inductive MatchKind where
  | MATCH
  | SPECIFICITY_ISSUE
  | MISMATCH
deriving DecidableEq

/-- Spec step 3 test for a single reference code, following the spec words:
codes of length at most 1 never participate; first the truncation equality
test (candidate[:-1] equals r[:-1]), then prefix containment (candidate starts
with r or r starts with candidate). -/
def specStepCond (candidate r : String) : Bool :=
  if candidate.length > 1 ∧ r.length > 1 then
    if candidate.dropRight 1 = r.dropRight 1 then true
    else if pyStartswith candidate r ∨ pyStartswith r candidate then true
    else false
  else false

/-- Spec step 3 scan: first reference code, in the given order, satisfying the
specificity test. -/
def matcherScan (candidate : String) : List String → Option String
  | [] => none
  | r :: rs => if specStepCond candidate r then some r else matcherScan candidate rs

/-- Modelled from the spec: classify of spec section 4.2, returning the match
kind together with the reference code that produced it (best_reference).
Step 1 empty candidate or empty reference list, step 2 exact membership,
step 3 ordered specificity scan, step 4 fallback mismatch. -/
def classify (candidate : String) (reference_codes : List String) :
    MatchKind × Option String :=
  if candidate = "" ∨ reference_codes = [] then (.MISMATCH, none)
  else if candidate ∈ reference_codes then (.MATCH, some candidate)
  else
    match matcherScan candidate reference_codes with
    | some r => (.SPECIFICITY_ISSUE, some r)
    | none => (.MISMATCH, none)

/-- Status string that check_sdx_match uses for each spec-side match kind. -/
def matchKindStatus : MatchKind → String
  | .MATCH => "SDX Match"
  | .SPECIFICITY_ISSUE => "Specificity Issue"
  | .MISMATCH => "SDX Mismatch"

/-! ## Record shapes

Each structure models one dict shape read by the engine, keeping only the keys
the engine reads; a field value of none models an absent key (or a None
value).  Auxiliary passthrough fields (pat_enc_id, SOI, ROM, descriptions not
read by the statistics) are omitted because no modelled function reads them.
-/

/-- Ground-truth SDX row as produced by load_csv_data (src/app.py lines
644-651): keys icd_code and cc_mcc or ccmcc.  Field icd_code? is optional
because calculate_account_statistics line 724 indexes item[...] directly and a
missing key raises KeyError there, while every other reader uses .get with a
default. -/
structure GtSdxItem where
  icd_code? : Option String
  cc_mcc? : Option String
  ccmcc? : Option String
deriving DecidableEq

/-- Ground-truth PDX row (load_csv_data lines 605-612); only icd_code is read
by the engine, via .get with default N/A (line 750). -/
structure PdxItem where
  icd_code? : Option String
deriving DecidableEq

/-- Row of the parsed coded_diagnoses table: keys Type, ICD-10-CM Code and
Diagnosis/Condition, always read via .get with default empty string. -/
structure Diagnosis where
  type? : Option String
  icd? : Option String
  desc? : Option String
deriving DecidableEq

/-- Row of the parsed combination_code_review table: keys type, icd-10-cm code
and cc/mcc, always read via .get. -/
structure CombItem where
  type? : Option String
  icd? : Option String
  cc_mcc? : Option String
deriving DecidableEq

/-- Row of the raw coded-vs-llm comparison data (load_coded_vs_llm_comparison):
only the type and coded_icd keys are read by the merge step. -/
structure RawCompItem where
  type? : Option String
  coded_icd? : Option String
deriving DecidableEq

/-- Entry appended by merge_comparison_with_parsed_data (lines 559-566). -/
structure MergedEntry where
  entry_type : String
  coded_icd : String
  coded_description : String
  llm_icd : String
  llm_description : String
  match_status : String
deriving DecidableEq

/-! ## Severity normalization (calculate_cc_mcc_statistics, lines 781-844) -/

/-- Raw ground-truth severity value as read at lines 875-879 (and inside
796-800 before upper-casing): key cc_mcc takes precedence over ccmcc; a
missing key or a falsy value reads as the empty string. -/
def gtRawSeverity (item : GtSdxItem) : String :=
  match item.cc_mcc? with
  | some v => v
  | none => item.ccmcc?.getD ""

/-- Normalized ground-truth severity as compared at lines 796-807:
upper-cased when non-empty, empty otherwise.  Only the exact results CC and
MCC are ever counted. -/
def gtSeverity (item : GtSdxItem) : String :=
  if gtRawSeverity item == "" then "" else pyUpper (gtRawSeverity item)

/-- Normalized extracted severity as computed at line 823: the cc/mcc value
upper-cased when present and non-empty, empty otherwise. -/
def llmSeverity (item : CombItem) : String :=
  let v := item.cc_mcc?.getD ""
  if v == "" then "" else pyUpper v

/-- Extracted-SDX rows: combination_code_review entries whose upper-cased type
is SDX (lines 813-816 and 858-861). -/
def llmSdx (combination_code_review : List CombItem) : List CombItem :=
  combination_code_review.filter (fun i => pyUpper (i.type?.getD "") == "SDX")

/-- Severity counters returned by calculate_cc_mcc_statistics. -/
structure CcMccStats where
  gt_cc : Nat
  gt_mcc : Nat
  llm_cc : Nat
  llm_mcc : Nat
deriving DecidableEq

/-- Embedding of calculate_cc_mcc_statistics (lines 781-844): count CC and MCC
occurrences independently on the ground-truth SDX rows and on the extracted
SDX rows.  The Python counter loops become countP. -/
def calculate_cc_mcc_statistics (ground_truth_sdx : List GtSdxItem)
    (combination_code_review : List CombItem) : CcMccStats :=
  let llm_sdx_diagnoses := llmSdx combination_code_review
  { gt_cc := ground_truth_sdx.countP (fun i => gtSeverity i == "CC")
    gt_mcc := ground_truth_sdx.countP (fun i => gtSeverity i == "MCC")
    llm_cc := llm_sdx_diagnoses.countP (fun i => llmSeverity i == "CC")
    llm_mcc := llm_sdx_diagnoses.countP (fun i => llmSeverity i == "MCC") }

/-! ## Severity comparison rows (create_cc_mcc_comparison_data, lines 846-920)

The Python dict llm_icd_mapping is modelled as an association list: assignment
d[k] = v updates the value of an existing key in place (keeping the key's
position) and otherwise appends the new key at the end, which is exactly the
insertion-order key semantics of a Python dict. -/

/-- Dict assignment d[k] = v on an association list. -/
def insertLast : List (String × String) → String → String → List (String × String)
  | [], k, v => [(k, v)]
  | p :: rest, k, v =>
    if p.1 == k then (k, v) :: rest else p :: insertLast rest k v

/-- Loop body of the mapping construction (lines 865-869): rows with an empty
code are skipped, every other row assigns its cc/mcc value to its code. -/
def mapStep (m : List (String × String)) (item : CombItem) : List (String × String) :=
  let icd_code := item.icd?.getD ""
  if icd_code == "" then m else insertLast m icd_code (item.cc_mcc?.getD "")

/-- Mapping of extracted ICD codes to their cc/mcc values (lines 863-869):
rows with an empty code are skipped, later occurrences of the same code
overwrite the stored value. -/
def llmIcdMapping (llm_sdx_diagnoses : List CombItem) : List (String × String) :=
  llm_sdx_diagnoses.foldl mapStep []

/-- Dict lookup d[k] (also d.get and the membership test k in d). -/
def lookupMap (m : List (String × String)) (k : String) : Option String :=
  (m.find? (fun p => p.1 == k)).map Prod.snd

/-- Row of the CC/MCC comparison table (lines 909-915). -/
structure CcMccRow where
  gt_icd : String
  gt_cc_mcc : String
  llm_icd : Option String
  llm_cc_mcc : Option String
  match_type : String
deriving DecidableEq

/-- Counterpart search for one ground-truth code (lines 883-907): exact key
membership gives Match; otherwise the first mapping key satisfying the
specificity conditions gives Specificity Issue; otherwise Mismatch with no
counterpart. -/
def ccMccRowFor (m : List (String × String)) (gt_icd gt_cc_mcc : String) : CcMccRow :=
  match lookupMap m gt_icd with
  | some v => ⟨gt_icd, gt_cc_mcc, some gt_icd, some v, "Match"⟩
  | none =>
    match m.find? (fun p => sdxSpecCond gt_icd p.1) with
    | some p => ⟨gt_icd, gt_cc_mcc, some p.1, some p.2, "Specificity Issue"⟩
    | none => ⟨gt_icd, gt_cc_mcc, none, none, "Mismatch"⟩

/-- Embedding of create_cc_mcc_comparison_data (lines 846-920): one row per
ground-truth SDX record whose raw severity is non-empty and upper-cases to CC
or MCC, in input order. -/
def create_cc_mcc_comparison_data (ground_truth_sdx : List GtSdxItem)
    (combination_code_review : List CombItem) : List CcMccRow :=
  let m := llmIcdMapping (llmSdx combination_code_review)
  ground_truth_sdx.filterMap (fun gt_item =>
    let gt_icd := gt_item.icd_code?.getD ""
    let gt_cc_mcc := gtRawSeverity gt_item
    if gt_cc_mcc ≠ "" ∧ (pyUpper gt_cc_mcc = "CC" ∨ pyUpper gt_cc_mcc = "MCC") then
      some (ccMccRowFor m gt_icd gt_cc_mcc)
    else none)

/-! ## Template-filter variant of the matcher (check_sdx_match_filter,
src/app.py lines 108-165) -/

/-- Result dict of check_sdx_match_filter: a status string and the list of
ground-truth codes reported with it. -/
structure SdxFilterResult where
  status : String
  gt_codes : List String
deriving DecidableEq

/-- Embedding of the classification core of check_sdx_match_filter (lines
141-162), over the already-extracted list of non-empty ground-truth codes:
unlike check_sdx_match, the specificity branch collects every qualifying
reference code and returns the whole list. -/
def check_sdx_match_filter (icd_code : String) (ground_truth_codes : List String) :
    SdxFilterResult :=
  if icd_code == "" || ground_truth_codes.isEmpty then
    ⟨"SDX Mismatch", ground_truth_codes⟩
  else if ground_truth_codes.contains icd_code then ⟨"SDX Match", [icd_code]⟩
  else
    let specificity_matches :=
      ground_truth_codes.filter (fun gt_code => sdxSpecCond icd_code gt_code)
    if specificity_matches.isEmpty then ⟨"SDX Mismatch", ground_truth_codes⟩
    else ⟨"Specificity Issue", specificity_matches⟩

/-! ## Merge of parsed diagnoses into the comparison data
(merge_comparison_with_parsed_data, lines 532-575), per account -/

/-- Per-account body of merge_comparison_with_parsed_data: collect the set of
coded_icd values of the SDX-typed raw comparison rows, then emit one entry per
parsed diagnosis with a non-empty code, marked Match exactly when the code is
in that set. -/
def merge_account (comparison_items : List RawCompItem)
    (parsed_diagnoses : List Diagnosis) : List MergedEntry :=
  let ground_truth_sdx_codes : Finset String :=
    ((comparison_items.filter (fun i => i.type? == some "SDX")).map
      (fun i => i.coded_icd?.getD "")).toFinset
  parsed_diagnoses.filterMap (fun d =>
    let icd_code := d.icd?.getD ""
    let diagnosis_type := pyUpper (d.type?.getD "")
    let description := d.desc?.getD ""
    if icd_code == "" then none
    else
      some ⟨diagnosis_type, icd_code, description, icd_code, description,
        if icd_code ∈ ground_truth_sdx_codes then "Match" else "Mismatch"⟩)

/-! ## Per-account statistics (calculate_account_statistics, lines 716-779)

The try/except wrapper is modelled as an Except-valued core plus a total
wrapper returning the sentinel statistics on error.  The only fallible
operation inside the try block is the direct indexing item[...] of icd_code at
line 724 (every other field access uses .get with a default, and both helper
statistics functions catch their own exceptions); it becomes the Except-valued
extraction gtSdxCodes. -/

/-- Statistics dict returned by calculate_account_statistics. -/
structure AccountStats where
  total_sdx : Nat
  llm_matched_sdx : Nat
  matched_icds : Nat
  accuracy : ℚ
  pdx_coded : String
  pdx_llm : String
  pdx_matched : Bool
  cc_mcc_stats : CcMccStats
deriving DecidableEq

/-- Python round(x, 1) on the accuracy value, over the rationals: the nearest
multiple of one tenth.  Mathlib round resolves exact ties upward while Python
float round resolves them to even; no claim below depends on a tie. -/
def roundTo1 (q : ℚ) : ℚ := ((round (q * 10) : ℤ) : ℚ) / 10

/-- Extraction of the ground-truth SDX codes by direct indexing (line 724,
inside the set comprehension): a missing icd_code key raises KeyError. -/
def gtSdxCodes : List GtSdxItem → Except String (List String)
  | [] => .ok []
  | item :: rest =>
    match item.icd_code? with
    | none => .error "KeyError: icd_code"
    | some c => (gtSdxCodes rest).map (fun cs => c :: cs)

/-- Try-block body of calculate_account_statistics (lines 719-767), taking the
per-account collections the source looks up from its global dicts:
coded_diagnoses (parsed), the ground-truth SDX and PDX rows (csv_data), the
merged comparison entries for the account, and the combination_code_review
rows used by the severity statistics. -/
def calcStatsCore (coded_diagnoses : List Diagnosis)
    (ground_truth_sdx : List GtSdxItem) (ground_truth_pdx : List PdxItem)
    (comparison_entries : List MergedEntry)
    (combination_code_review : List CombItem) : Except String AccountStats :=
  match gtSdxCodes ground_truth_sdx with
  | .error e => .error e
  | .ok gt_codes =>
    let ground_truth_sdx_codes : Finset String := gt_codes.toFinset
    let total_sdx := ground_truth_sdx.length
    let sdx_diagnoses :=
      coded_diagnoses.filter (fun d => pyUpper (d.type?.getD "") == "SDX")
    let parsed_sdx_codes : Finset String :=
      (sdx_diagnoses.map (fun d => d.icd?.getD "")).toFinset
    let matched_sdx := (parsed_sdx_codes ∩ ground_truth_sdx_codes).card
    let matched_icds := comparison_entries.length
    let total_icds := coded_diagnoses.length
    let accuracy :=
      roundTo1 (if total_icds > 0 then (matched_icds : ℚ) / (total_icds : ℚ) * 100 else 0)
    let pdx_diagnoses :=
      coded_diagnoses.filter (fun d => pyUpper (d.type?.getD "") == "PDX")
    let pdx_llm :=
      match pdx_diagnoses with
      | [] => "N/A"
      | d :: _ => d.icd?.getD "N/A"
    let pdx_coded :=
      match ground_truth_pdx with
      | [] => "N/A"
      | p :: _ => p.icd_code?.getD "N/A"
    let pdx_matched := pdx_coded == pdx_llm && pdx_coded != "N/A"
    .ok
      { total_sdx := total_sdx
        llm_matched_sdx := matched_sdx
        matched_icds := matched_icds
        accuracy := accuracy
        pdx_coded := pdx_coded
        pdx_llm := pdx_llm
        pdx_matched := pdx_matched
        cc_mcc_stats :=
          calculate_cc_mcc_statistics ground_truth_sdx combination_code_review }

/-- Sentinel statistics returned by the except branch (lines 770-779). -/
def sentinelStats : AccountStats :=
  { total_sdx := 0
    llm_matched_sdx := 0
    matched_icds := 0
    accuracy := 0
    pdx_coded := "N/A"
    pdx_llm := "N/A"
    pdx_matched := false
    cc_mcc_stats := { gt_cc := 0, gt_mcc := 0, llm_cc := 0, llm_mcc := 0 } }

/-- Embedding of calculate_account_statistics (lines 716-779): the try-block
result, or the sentinel statistics when the body raised. -/
def calculate_account_statistics (coded_diagnoses : List Diagnosis)
    (ground_truth_sdx : List GtSdxItem) (ground_truth_pdx : List PdxItem)
    (comparison_entries : List MergedEntry)
    (combination_code_review : List CombItem) : AccountStats :=
  match calcStatsCore coded_diagnoses ground_truth_sdx ground_truth_pdx
      comparison_entries combination_code_review with
  | .ok s => s
  | .error _ => sentinelStats

/-! ## Claim-side definitions

Each definition below restates a quantity the way the spec describes it, to be
compared against the source embedding. -/

/-- Codes of all extracted-SDX rows, in order, used as the reference list of
the severity comparator per the spec (reference list = all extracted-SDX
codes). -/
def extractedSdxCodes (combination_code_review : List CombItem) : List String :=
  (llmSdx combination_code_review).map (fun i => i.icd?.getD "")

/-- Set of extracted-SDX codes of the parsed diagnoses, as the spec describes
matched_sdx. -/
def extractedSdxCodeSet (coded_diagnoses : List Diagnosis) : Finset String :=
  ((coded_diagnoses.filter (fun d => pyUpper (d.type?.getD "") == "SDX")).map
    (fun d => d.icd?.getD "")).toFinset

/-- Set of ground-truth-SDX codes, as the spec describes matched_sdx. -/
def gtSdxCodeSet (ground_truth_sdx : List GtSdxItem) : Finset String :=
  (ground_truth_sdx.map (fun i => i.icd_code?.getD "")).toFinset

/-- Code of the first extracted record with role PDX, or N/A if there is none,
as the spec describes pdx_extracted_code. -/
def firstPdxCode (coded_diagnoses : List Diagnosis) : String :=
  match coded_diagnoses.find? (fun d => pyUpper (d.type?.getD "") == "PDX") with
  | some d => d.icd?.getD "N/A"
  | none => "N/A"

/-- Code of the single ground-truth PDX record (the first encountered), or N/A
if there is none, as the spec describes pdx_ground_truth_code. -/
def firstGtPdxCode (ground_truth_pdx : List PdxItem) : String :=
  match ground_truth_pdx with
  | [] => "N/A"
  | p :: _ => p.icd_code?.getD "N/A"

/-- Count of extracted records whose code classifies as MATCH via the Code
Matcher against the given reference list, as the spec describes
matched_icds_overall. -/
def matcherMatchCount (coded_diagnoses : List Diagnosis) (refs : List String) : Nat :=
  (coded_diagnoses.filter
    (fun d => check_sdx_match (d.icd?.getD "") refs == "SDX Match")).length

/-- Severity normalization as the spec words it: upper-case the source value;
only exact matches to CC or MCC are kept, everything else becomes NONE. -/
def specNormalize (v : String) : String :=
  if pyUpper v = "CC" then "CC" else if pyUpper v = "MCC" then "MCC" else "NONE"

/-- Severity value of the last occurrence of a code in a row list. -/
def lastValIn (l : List CombItem) (code : String) : Option String :=
  ((l.filter (fun i => i.icd?.getD "" == code)).map
    (fun i => i.cc_mcc?.getD "")).getLast?

/-- Severity value of the last extracted-SDX occurrence of a code, as the
duplicate-collapse claim describes the surviving mapping value. -/
def lastCcMccFor (combination_code_review : List CombItem) (code : String) :
    Option String :=
  lastValIn (llmSdx combination_code_review) code

/-- Row status string used by the severity comparison table for each match
kind. -/
def rowStatus : MatchKind → String
  | .MATCH => "Match"
  | .SPECIFICITY_ISSUE => "Specificity Issue"
  | .MISMATCH => "Mismatch"

/-! # Theorems -/

/-- Pointwise agreement of the source specificity condition with the spec-side
one. -/
theorem sdxSpecCond_eq_specStepCond (c r : String) :
    sdxSpecCond c r = specStepCond c r := by
  rw [Bool.eq_iff_iff]
  unfold sdxSpecCond specStepCond
  split_ifs <;> simp_all

/-- List.any over the specificity condition agrees with the spec-side ordered
scan being successful. -/
theorem any_sdxSpecCond_eq_scan (c : String) (refs : List String) :
    refs.any (fun gt => sdxSpecCond c gt) = (matcherScan c refs).isSome := by
  simp only [sdxSpecCond_eq_specStepCond]
  induction refs with
  | nil => rfl
  | cons r rs ih =>
    simp only [List.any_cons, matcherScan]
    by_cases h : specStepCond c r <;> simp [h, ih]

/-- C1: the code-matcher classification of check_sdx_match follows the four-step
algorithm of the spec exactly: empty candidate or empty reference list gives
MISMATCH; exact case-sensitive membership gives MATCH; otherwise the ordered
scan for a reference with both lengths above 1 satisfying truncation equality
or prefix containment gives SPECIFICITY_ISSUE, references of length at most 1
never participating; otherwise MISMATCH. -/
theorem check_sdx_match_follows_spec (candidate : String) (refs : List String) :
    check_sdx_match candidate refs = matchKindStatus (classify candidate refs).1 := by
  unfold check_sdx_match classify
  by_cases h0 : candidate = "" ∨ refs = []
  · have hb : (candidate == "" || refs.isEmpty) = true := by
      rcases h0 with h | h <;> simp [h]
    simp [hb, h0, matchKindStatus]
  · have hb : (candidate == "" || refs.isEmpty) = false := by
      push_neg at h0
      simp [h0.1, h0.2]
    by_cases hm : candidate ∈ refs
    · simp [hb, h0, hm, matchKindStatus]
    · have hc : refs.contains candidate = false := by
        simp [hm]
      rw [any_sdxSpecCond_eq_scan]
      rcases hscan : matcherScan candidate refs with _ | r <;>
        simp [hb, h0, hm, hc, hscan, matchKindStatus]

/-- Explicit form of the try-block result when the ground-truth code
extraction succeeds. -/
theorem calcStatsCore_ok (coded_diagnoses : List Diagnosis)
    (ground_truth_sdx : List GtSdxItem) (ground_truth_pdx : List PdxItem)
    (comparison_entries : List MergedEntry)
    (combination_code_review : List CombItem) (gt_codes : List String)
    (h : gtSdxCodes ground_truth_sdx = .ok gt_codes) :
    calcStatsCore coded_diagnoses ground_truth_sdx ground_truth_pdx
        comparison_entries combination_code_review = .ok
      { total_sdx := ground_truth_sdx.length
        llm_matched_sdx :=
          (((coded_diagnoses.filter (fun d => pyUpper (d.type?.getD "") == "SDX")).map
            (fun d => d.icd?.getD "")).toFinset ∩ gt_codes.toFinset).card
        matched_icds := comparison_entries.length
        accuracy := roundTo1 (if coded_diagnoses.length > 0 then
          (comparison_entries.length : ℚ) / (coded_diagnoses.length : ℚ) * 100 else 0)
        pdx_coded :=
          match ground_truth_pdx with
          | [] => "N/A"
          | p :: _ => p.icd_code?.getD "N/A"
        pdx_llm :=
          match coded_diagnoses.filter (fun d => pyUpper (d.type?.getD "") == "PDX") with
          | [] => "N/A"
          | d :: _ => d.icd?.getD "N/A"
        pdx_matched :=
          (match ground_truth_pdx with
            | [] => "N/A"
            | p :: _ => p.icd_code?.getD "N/A") ==
            (match coded_diagnoses.filter
                (fun d => pyUpper (d.type?.getD "") == "PDX") with
              | [] => "N/A"
              | d :: _ => d.icd?.getD "N/A") &&
          (match ground_truth_pdx with
            | [] => "N/A"
            | p :: _ => p.icd_code?.getD "N/A") != "N/A"
        cc_mcc_stats :=
          calculate_cc_mcc_statistics ground_truth_sdx combination_code_review } := by
  unfold calcStatsCore
  rw [h]

/-- Wrapper form of calcStatsCore_ok. -/
theorem calculate_account_statistics_ok (coded_diagnoses : List Diagnosis)
    (ground_truth_sdx : List GtSdxItem) (ground_truth_pdx : List PdxItem)
    (comparison_entries : List MergedEntry)
    (combination_code_review : List CombItem) (gt_codes : List String)
    (h : gtSdxCodes ground_truth_sdx = .ok gt_codes) :
    calculate_account_statistics coded_diagnoses ground_truth_sdx ground_truth_pdx
        comparison_entries combination_code_review =
      { total_sdx := ground_truth_sdx.length
        llm_matched_sdx :=
          (((coded_diagnoses.filter (fun d => pyUpper (d.type?.getD "") == "SDX")).map
            (fun d => d.icd?.getD "")).toFinset ∩ gt_codes.toFinset).card
        matched_icds := comparison_entries.length
        accuracy := roundTo1 (if coded_diagnoses.length > 0 then
          (comparison_entries.length : ℚ) / (coded_diagnoses.length : ℚ) * 100 else 0)
        pdx_coded :=
          match ground_truth_pdx with
          | [] => "N/A"
          | p :: _ => p.icd_code?.getD "N/A"
        pdx_llm :=
          match coded_diagnoses.filter (fun d => pyUpper (d.type?.getD "") == "PDX") with
          | [] => "N/A"
          | d :: _ => d.icd?.getD "N/A"
        pdx_matched :=
          (match ground_truth_pdx with
            | [] => "N/A"
            | p :: _ => p.icd_code?.getD "N/A") ==
            (match coded_diagnoses.filter
                (fun d => pyUpper (d.type?.getD "") == "PDX") with
              | [] => "N/A"
              | d :: _ => d.icd?.getD "N/A") &&
          (match ground_truth_pdx with
            | [] => "N/A"
            | p :: _ => p.icd_code?.getD "N/A") != "N/A"
        cc_mcc_stats :=
          calculate_cc_mcc_statistics ground_truth_sdx combination_code_review } := by
  unfold calculate_account_statistics
  rw [calcStatsCore_ok coded_diagnoses ground_truth_sdx ground_truth_pdx
    comparison_entries combination_code_review gt_codes h]

/-- C2 (code bug): matched_icds is the length of the merged comparison list,
which contains one entry per parsed diagnosis with a non-empty code regardless
of its match_status, not the count of Code-Matcher MATCH classifications.  On
an account with coded diagnoses A01 and X99 (both SDX) and ground-truth SDX
list [A01], the code reports matched_icds = 2 and accuracy = 100, while the
Code Matcher classifies only A01 as MATCH (count 1, which would give accuracy
50). -/
theorem matched_icds_counts_all_parsed_entries :
    (calculate_account_statistics
        [⟨some "SDX", some "A01", none⟩, ⟨some "SDX", some "X99", none⟩]
        [⟨some "A01", none, none⟩] []
        (merge_account [⟨some "SDX", some "A01"⟩]
          [⟨some "SDX", some "A01", none⟩, ⟨some "SDX", some "X99", none⟩])
        []).matched_icds = 2 ∧
    (calculate_account_statistics
        [⟨some "SDX", some "A01", none⟩, ⟨some "SDX", some "X99", none⟩]
        [⟨some "A01", none, none⟩] []
        (merge_account [⟨some "SDX", some "A01"⟩]
          [⟨some "SDX", some "A01", none⟩, ⟨some "SDX", some "X99", none⟩])
        []).accuracy = 100 ∧
    matcherMatchCount
      [⟨some "SDX", some "A01", none⟩, ⟨some "SDX", some "X99", none⟩]
      ["A01"] = 1 ∧
    roundTo1 ((1 : ℚ) / 2 * 100) = 50 := by
  have h := calculate_account_statistics_ok
    [⟨some "SDX", some "A01", none⟩, ⟨some "SDX", some "X99", none⟩]
    [⟨some "A01", none, none⟩] []
    (merge_account [⟨some "SDX", some "A01"⟩]
      [⟨some "SDX", some "A01", none⟩, ⟨some "SDX", some "X99", none⟩])
    [] ["A01"] rfl
  have hlen : (merge_account [⟨some "SDX", some "A01"⟩]
      [⟨some "SDX", some "A01", none⟩, ⟨some "SDX", some "X99", none⟩]).length = 2 := by
    decide
  refine ⟨?_, ?_, by decide, by norm_num [roundTo1, round_eq]⟩
  · rw [h]
    exact hlen
  · rw [h]
    show roundTo1 _ = 100
    rw [hlen]
    norm_num [roundTo1, round_eq]

/-- C5 (counterexample): for candidate A11 both reference codes A12 and A13
qualify as specificity issues, and check_sdx_match_filter reports both of
them, not only the first one. -/
theorem filter_reports_all_specificity_refs :
    (check_sdx_match_filter "A11" ["A12", "A13"]).status = "Specificity Issue" ∧
    (check_sdx_match_filter "A11" ["A12", "A13"]).gt_codes = ["A12", "A13"] ∧
    sdxSpecCond "A11" "A13" = true := by
  refine ⟨by decide, by decide, by decide⟩

/-- Heads of filtered lists are the first hits. -/
theorem head?_filter_eq_find? (p : α → Bool) (l : List α) :
    (l.filter p).head? = l.find? p := by
  induction l with
  | nil => rfl
  | cons a l ih =>
    by_cases h : p a <;> simp [h, List.find?_cons, ih]

/-- C5 (amended): when the candidate is non-empty, not an exact member, and at
least one reference qualifies, check_sdx_match_filter reports the full list of
qualifying reference codes in the reference list's iteration order, and the
first element of that reported list is the first qualifying reference. -/
theorem filter_specificity_reports_ordered_list (candidate : String)
    (refs : List String) (h1 : candidate ≠ "") (h2 : candidate ∉ refs)
    (h3 : refs.filter (fun gt => sdxSpecCond candidate gt) ≠ []) :
    check_sdx_match_filter candidate refs =
      ⟨"Specificity Issue", refs.filter (fun gt => sdxSpecCond candidate gt)⟩ ∧
    (refs.filter (fun gt => sdxSpecCond candidate gt)).head? =
      refs.find? (fun gt => sdxSpecCond candidate gt) := by
  have hrefs : refs ≠ [] := by
    intro h
    exact h3 (by simp [h])
  have hb : (candidate == "" || refs.isEmpty) = false := by
    simp [h1, hrefs]
  have hc : refs.contains candidate = false := by simp [h2]
  have hfe : (refs.filter (fun gt => sdxSpecCond candidate gt)).isEmpty = false := by
    simpa [List.isEmpty_iff] using h3
  refine ⟨?_, head?_filter_eq_find? _ _⟩
  unfold check_sdx_match_filter
  simp [hb, hc, hfe]
  exact h2

/-- C5 (amended, witness): concrete run of the amended statement at candidate
A11 against references [A12, A13]. -/
theorem filter_specificity_reports_ordered_list_witness :
    check_sdx_match_filter "A11" ["A12", "A13"] =
      ⟨"Specificity Issue", ["A12", "A13"]⟩ := by
  have h := filter_specificity_reports_ordered_list "A11" ["A12", "A13"]
    (by decide) (by decide) (by decide)
  exact h.1.trans (by decide)

/-- C8 (counterexample): a ground-truth SDX row with the lower-case severity
value cc produces a comparison row whose gt_cc_mcc field is the raw string cc,
which is none of NONE, CC, MCC, so row severity values are not normalized. -/
theorem row_severity_not_normalized :
    (create_cc_mcc_comparison_data [⟨some "A12", some "cc", none⟩] []).map
      (fun r => r.gt_cc_mcc) = ["cc"] ∧
    "cc" ∉ (["NONE", "CC", "MCC"] : List String) := by
  refine ⟨by decide, by decide⟩

/-- C9: any error of the per-account statistics computation is caught at the
wrapper boundary and the account's result degrades to the all-zero/N-slash-A
sentinel statistics object instead of propagating; the wrapper is a total
function, so every account always yields a statistics object. -/
theorem account_error_degrades_to_sentinel (coded_diagnoses : List Diagnosis)
    (ground_truth_sdx : List GtSdxItem) (ground_truth_pdx : List PdxItem)
    (comparison_entries : List MergedEntry)
    (combination_code_review : List CombItem) (e : String)
    (h : calcStatsCore coded_diagnoses ground_truth_sdx ground_truth_pdx
      comparison_entries combination_code_review = .error e) :
    calculate_account_statistics coded_diagnoses ground_truth_sdx ground_truth_pdx
      comparison_entries combination_code_review =
      { total_sdx := 0, llm_matched_sdx := 0, matched_icds := 0, accuracy := 0,
        pdx_coded := "N/A", pdx_llm := "N/A", pdx_matched := false,
        cc_mcc_stats := { gt_cc := 0, gt_mcc := 0, llm_cc := 0, llm_mcc := 0 } } := by
  unfold calculate_account_statistics
  rw [h]
  rfl

/-- Successful ground-truth code extraction, in terms of the per-item option
fields: when every row has its icd_code key, the extracted list is the list of
those codes. -/
theorem gtSdxCodes_ok_of_isSome (l : List GtSdxItem)
    (h : ∀ i ∈ l, i.icd_code?.isSome) :
    gtSdxCodes l = .ok (l.map (fun i => i.icd_code?.getD "")) := by
  induction l with
  | nil => rfl
  | cons item rest ih =>
    have hitem := h item (by simp)
    rcases hi : item.icd_code? with _ | c
    · rw [hi] at hitem
      simp at hitem
    · simp only [gtSdxCodes, hi, List.map_cons, Option.getD_some,
        ih (fun i hi2 => h i (by simp [hi2])), Except.map]

/-- Length preservation of the ground-truth code extraction. -/
theorem gtSdxCodes_ok_length (l : List GtSdxItem) (cs : List String)
    (h : gtSdxCodes l = .ok cs) : cs.length = l.length := by
  induction l generalizing cs with
  | nil =>
    simp only [gtSdxCodes] at h
    cases h
    rfl
  | cons item rest ih =>
    simp only [gtSdxCodes] at h
    rcases hi : item.icd_code? with _ | c <;> rw [hi] at h
    · cases h
    · rcases hr : gtSdxCodes rest with e | cs2 <;> rw [hr] at h <;>
        simp [Except.map] at h
      subst h
      simp [ih cs2 hr]

/-- Failure of the ground-truth code extraction makes the wrapper return the
sentinel statistics. -/
theorem calculate_account_statistics_gt_error (coded_diagnoses : List Diagnosis)
    (ground_truth_sdx : List GtSdxItem) (ground_truth_pdx : List PdxItem)
    (comparison_entries : List MergedEntry)
    (combination_code_review : List CombItem) (e : String)
    (h : gtSdxCodes ground_truth_sdx = .error e) :
    calculate_account_statistics coded_diagnoses ground_truth_sdx ground_truth_pdx
      comparison_entries combination_code_review = sentinelStats := by
  unfold calculate_account_statistics calcStatsCore
  rw [h]

/-- C9 (witness): a ground-truth SDX row without an icd_code key makes the
core raise KeyError, and the account still receives the sentinel statistics. -/
theorem account_error_degrades_to_sentinel_witness :
    calcStatsCore [] [⟨none, none, none⟩] [] [] [] = .error "KeyError: icd_code" ∧
    calculate_account_statistics [] [⟨none, none, none⟩] [] [] [] =
      { total_sdx := 0, llm_matched_sdx := 0, matched_icds := 0, accuracy := 0,
        pdx_coded := "N/A", pdx_llm := "N/A", pdx_matched := false,
        cc_mcc_stats := { gt_cc := 0, gt_mcc := 0, llm_cc := 0, llm_mcc := 0 } } :=
  ⟨rfl, account_error_degrades_to_sentinel [] [⟨none, none, none⟩] [] [] []
    "KeyError: icd_code" rfl⟩

/-- C6: when every ground-truth SDX row carries its code, matched_sdx is the
cardinality of the intersection of the set of extracted-SDX codes with the set
of ground-truth-SDX codes and total_sdx is the duplicate-counting length of
the ground-truth SDX list; and unconditionally matched_sdx is at most
total_sdx. -/
theorem matched_sdx_is_set_intersection (coded_diagnoses : List Diagnosis)
    (ground_truth_sdx : List GtSdxItem) (ground_truth_pdx : List PdxItem)
    (comparison_entries : List MergedEntry)
    (combination_code_review : List CombItem) :
    ((∀ i ∈ ground_truth_sdx, i.icd_code?.isSome) →
      (calculate_account_statistics coded_diagnoses ground_truth_sdx ground_truth_pdx
          comparison_entries combination_code_review).llm_matched_sdx =
        (extractedSdxCodeSet coded_diagnoses ∩ gtSdxCodeSet ground_truth_sdx).card ∧
      (calculate_account_statistics coded_diagnoses ground_truth_sdx ground_truth_pdx
          comparison_entries combination_code_review).total_sdx =
        ground_truth_sdx.length) ∧
    (calculate_account_statistics coded_diagnoses ground_truth_sdx ground_truth_pdx
        comparison_entries combination_code_review).llm_matched_sdx ≤
      (calculate_account_statistics coded_diagnoses ground_truth_sdx ground_truth_pdx
          comparison_entries combination_code_review).total_sdx := by
  constructor
  · intro h
    rw [calculate_account_statistics_ok coded_diagnoses ground_truth_sdx
      ground_truth_pdx comparison_entries combination_code_review _
      (gtSdxCodes_ok_of_isSome ground_truth_sdx h)]
    exact ⟨rfl, rfl⟩
  · rcases hg : gtSdxCodes ground_truth_sdx with e | gt_codes
    · rw [calculate_account_statistics_gt_error coded_diagnoses ground_truth_sdx
        ground_truth_pdx comparison_entries combination_code_review e hg]
      exact Nat.le_refl 0
    · rw [calculate_account_statistics_ok coded_diagnoses ground_truth_sdx
        ground_truth_pdx comparison_entries combination_code_review gt_codes hg]
      calc (_ ∩ gt_codes.toFinset).card
          ≤ gt_codes.toFinset.card := Finset.card_le_card Finset.inter_subset_right
        _ ≤ gt_codes.length := gt_codes.toFinset_card_le
        _ = ground_truth_sdx.length := gtSdxCodes_ok_length ground_truth_sdx gt_codes hg

/-- C6 (witness): concrete account with extracted SDX codes [A01] and
ground-truth SDX codes [A01, B19]. -/
theorem matched_sdx_is_set_intersection_witness :
    (calculate_account_statistics [⟨some "SDX", some "A01", none⟩]
        [⟨some "A01", none, none⟩, ⟨some "B19", none, none⟩] [] [] []).llm_matched_sdx =
      (extractedSdxCodeSet [⟨some "SDX", some "A01", none⟩] ∩
        gtSdxCodeSet [⟨some "A01", none, none⟩, ⟨some "B19", none, none⟩]).card ∧
    (calculate_account_statistics [⟨some "SDX", some "A01", none⟩]
        [⟨some "A01", none, none⟩, ⟨some "B19", none, none⟩] [] [] []).llm_matched_sdx ≤
      (calculate_account_statistics [⟨some "SDX", some "A01", none⟩]
          [⟨some "A01", none, none⟩, ⟨some "B19", none, none⟩] [] [] []).total_sdx := by
  have h := matched_sdx_is_set_intersection [⟨some "SDX", some "A01", none⟩]
    [⟨some "A01", none, none⟩, ⟨some "B19", none, none⟩] [] [] []
  exact ⟨(h.1 (by decide)).1, h.2⟩

/-- Rounding to one decimal place preserves non-negativity. -/
theorem roundTo1_nonneg {q : ℚ} (h : 0 ≤ q) : 0 ≤ roundTo1 q := by
  unfold roundTo1
  apply div_nonneg _ (by norm_num)
  have h2 : (0 : ℤ) ≤ round (q * 10) := by
    rw [round_eq]
    apply Int.le_floor.mpr
    push_cast
    linarith
  exact_mod_cast h2

/-- Rounding to one decimal place preserves the upper bound 100. -/
theorem roundTo1_le_100 {q : ℚ} (h : q ≤ 100) : roundTo1 q ≤ 100 := by
  unfold roundTo1
  rw [div_le_iff₀ (by norm_num : (0 : ℚ) < 10)]
  have h2 : round (q * 10) ≤ 1000 := by
    rw [round_eq]
    have h3 : (⌊q * 10 + 1 / 2⌋ : ℤ) < 1001 := by
      apply Int.floor_lt.mpr
      push_cast
      linarith
    omega
  calc ((round (q * 10) : ℤ) : ℚ) ≤ (1000 : ℚ) := by exact_mod_cast h2
    _ = 100 * 10 := by norm_num

/-- Rounding zero gives zero. -/
theorem roundTo1_zero : roundTo1 0 = 0 := by
  unfold roundTo1
  norm_num

/-- C7: with the comparison entries the program feeds in (the merged list for
the account, or the empty list when the account is absent from the comparison
data), accuracy always lies in the closed interval from 0 to 100, and it is
exactly 0 when the account has no coded diagnoses. -/
theorem accuracy_in_range (coded_diagnoses : List Diagnosis)
    (comparison_items : List RawCompItem) (ground_truth_sdx : List GtSdxItem)
    (ground_truth_pdx : List PdxItem) (combination_code_review : List CombItem)
    (comparison_entries : List MergedEntry)
    (hentries : comparison_entries = merge_account comparison_items coded_diagnoses ∨
      comparison_entries = []) :
    0 ≤ (calculate_account_statistics coded_diagnoses ground_truth_sdx ground_truth_pdx
        comparison_entries combination_code_review).accuracy ∧
    (calculate_account_statistics coded_diagnoses ground_truth_sdx ground_truth_pdx
        comparison_entries combination_code_review).accuracy ≤ 100 ∧
    (coded_diagnoses.length = 0 →
      (calculate_account_statistics coded_diagnoses ground_truth_sdx ground_truth_pdx
          comparison_entries combination_code_review).accuracy = 0) := by
  have hlen : comparison_entries.length ≤ coded_diagnoses.length := by
    rcases hentries with h | h
    · rw [h]
      unfold merge_account
      exact List.length_filterMap_le _ _
    · simp [h]
  rcases hg : gtSdxCodes ground_truth_sdx with e | gt_codes
  · rw [calculate_account_statistics_gt_error coded_diagnoses ground_truth_sdx
      ground_truth_pdx comparison_entries combination_code_review e hg]
    refine ⟨le_refl 0, by norm_num [sentinelStats], fun _ => rfl⟩
  · rw [calculate_account_statistics_ok coded_diagnoses ground_truth_sdx
      ground_truth_pdx comparison_entries combination_code_review gt_codes hg]
    by_cases ht : coded_diagnoses.length > 0
    · have hq0 : (0 : ℚ) ≤ (comparison_entries.length : ℚ) /
          (coded_diagnoses.length : ℚ) * 100 := by positivity
      have hq100 : (comparison_entries.length : ℚ) /
          (coded_diagnoses.length : ℚ) * 100 ≤ 100 := by
        have htq : (0 : ℚ) < (coded_diagnoses.length : ℚ) := by
          exact_mod_cast ht
        have hdiv : (comparison_entries.length : ℚ) /
            (coded_diagnoses.length : ℚ) ≤ 1 :=
          (div_le_one htq).mpr (by exact_mod_cast hlen)
        linarith
      refine ⟨?_, ?_, ?_⟩
      · simp only [if_pos ht]
        exact roundTo1_nonneg hq0
      · simp only [if_pos ht]
        exact roundTo1_le_100 hq100
      · intro h0
        omega
    · refine ⟨?_, ?_, fun _ => ?_⟩ <;>
        simp only [if_neg ht, roundTo1_zero] <;> norm_num

/-- C7 (witness): concrete account with no coded diagnoses: accuracy is
exactly 0, inside the interval. -/
theorem accuracy_in_range_witness :
    0 ≤ (calculate_account_statistics [] [] [] [] []).accuracy ∧
    (calculate_account_statistics [] [] [] [] []).accuracy ≤ 100 ∧
    (calculate_account_statistics [] [] [] [] []).accuracy = 0 := by
  have h := accuracy_in_range [] [] [] [] [] [] (Or.inr rfl)
  exact ⟨h.1, h.2.1, h.2.2 rfl⟩

/-- C4: when every ground-truth SDX row carries its code (so the account
computation succeeds), pdx_llm is the code of the first extracted record of
role PDX or N/A, pdx_coded is the code of the first ground-truth PDX record or
N/A, and pdx_matched holds exactly when both codes are present and equal. -/
theorem pdx_comparison_exact (coded_diagnoses : List Diagnosis)
    (ground_truth_sdx : List GtSdxItem) (ground_truth_pdx : List PdxItem)
    (comparison_entries : List MergedEntry)
    (combination_code_review : List CombItem)
    (h : ∀ i ∈ ground_truth_sdx, i.icd_code?.isSome) :
    (calculate_account_statistics coded_diagnoses ground_truth_sdx ground_truth_pdx
        comparison_entries combination_code_review).pdx_llm =
      firstPdxCode coded_diagnoses ∧
    (calculate_account_statistics coded_diagnoses ground_truth_sdx ground_truth_pdx
        comparison_entries combination_code_review).pdx_coded =
      firstGtPdxCode ground_truth_pdx ∧
    ((calculate_account_statistics coded_diagnoses ground_truth_sdx ground_truth_pdx
        comparison_entries combination_code_review).pdx_matched = true ↔
      (calculate_account_statistics coded_diagnoses ground_truth_sdx ground_truth_pdx
          comparison_entries combination_code_review).pdx_coded ≠ "N/A" ∧
      (calculate_account_statistics coded_diagnoses ground_truth_sdx ground_truth_pdx
          comparison_entries combination_code_review).pdx_llm ≠ "N/A" ∧
      (calculate_account_statistics coded_diagnoses ground_truth_sdx ground_truth_pdx
          comparison_entries combination_code_review).pdx_coded =
        (calculate_account_statistics coded_diagnoses ground_truth_sdx ground_truth_pdx
            comparison_entries combination_code_review).pdx_llm) := by
  rw [calculate_account_statistics_ok coded_diagnoses ground_truth_sdx
    ground_truth_pdx comparison_entries combination_code_review _
    (gtSdxCodes_ok_of_isSome ground_truth_sdx h)]
  refine ⟨?_, ?_, ?_⟩
  · show (match coded_diagnoses.filter
        (fun d => pyUpper (d.type?.getD "") == "PDX") with
      | [] => "N/A"
      | d :: _ => d.icd?.getD "N/A") = firstPdxCode coded_diagnoses
    unfold firstPdxCode
    rw [← head?_filter_eq_find?]
    rcases hf : coded_diagnoses.filter (fun d => pyUpper (d.type?.getD "") == "PDX") with
      _ | ⟨d2, rest⟩ <;> simp only [hf] <;> rfl
  · unfold firstGtPdxCode
    rcases ground_truth_pdx with _ | ⟨p, rest⟩ <;> rfl
  · show ((_ == _) && (_ != "N/A")) = true ↔ _
    simp only [Bool.and_eq_true, beq_iff_eq, bne_iff_ne, ne_eq]
    constructor
    · rintro ⟨heq, hna⟩
      exact ⟨hna, fun hb => hna (heq.trans hb), heq⟩
    · rintro ⟨hna, _, heq⟩
      exact ⟨heq, hna⟩

/-- C4 (witness): concrete account whose extracted and ground-truth PDX codes
are both I2510; pdx_matched is true. -/
theorem pdx_comparison_exact_witness :
    (calculate_account_statistics [⟨some "PDX", some "I2510", none⟩] []
        [⟨some "I2510"⟩] [] []).pdx_llm =
      firstPdxCode [⟨some "PDX", some "I2510", none⟩] ∧
    (calculate_account_statistics [⟨some "PDX", some "I2510", none⟩] []
        [⟨some "I2510"⟩] [] []).pdx_coded = firstGtPdxCode [⟨some "I2510"⟩] ∧
    (calculate_account_statistics [⟨some "PDX", some "I2510", none⟩] []
        [⟨some "I2510"⟩] [] []).pdx_matched = true := by
  have h := pdx_comparison_exact [⟨some "PDX", some "I2510", none⟩] []
    [⟨some "I2510"⟩] [] [] (by decide)
  exact ⟨h.1, h.2.1, h.2.2.mpr (by decide)⟩

/-- Agreement of the normalized-severity comparison of the source with the
spec-worded normalizer, for the two kept tags. -/
theorem normSeverity_beq_tag (v tag : String) (htag : tag = "CC" ∨ tag = "MCC") :
    ((if v == "" then "" else pyUpper v) == tag) = decide (specNormalize v = tag) := by
  by_cases hv : v = ""
  · subst hv
    rcases htag with rfl | rfl <;> decide
  · have hvb : (v == "") = false := by simp [hv]
    rw [hvb]
    rcases htag with rfl | rfl <;>
      by_cases h1 : pyUpper v = "CC" <;> by_cases h2 : pyUpper v = "MCC" <;>
        simp [specNormalize, h1, h2]

/-- Ground-truth fields of a comparison row are the values given to the row
constructor, whatever the match outcome. -/
theorem ccMccRowFor_gt_cc_mcc (m : List (String × String)) (a b : String) :
    (ccMccRowFor m a b).gt_cc_mcc = b := by
  unfold ccMccRowFor
  cases hl : lookupMap m a with
  | some v => rfl
  | none =>
    cases hf : m.find? (fun p => sdxSpecCond a p.1) with
    | some p => rfl
    | none => rfl

/-- C8 (amended): the severity counters are computed from normalized tags (the
source value upper-cased, only exact CC and MCC kept, every other value
including blank or absent counting as NONE, with column variant cc_mcc taking
precedence over ccmcc); the comparison rows, however, carry the severity
values unnormalized: the ground-truth tag of every emitted row upper-cases to
CC or MCC but is emitted in its source casing. -/
theorem severity_counts_normalized (ground_truth_sdx : List GtSdxItem)
    (combination_code_review : List CombItem) :
    calculate_cc_mcc_statistics ground_truth_sdx combination_code_review =
      { gt_cc := (ground_truth_sdx.filter
          (fun i => specNormalize (gtRawSeverity i) = "CC")).length
        gt_mcc := (ground_truth_sdx.filter
          (fun i => specNormalize (gtRawSeverity i) = "MCC")).length
        llm_cc := ((llmSdx combination_code_review).filter
          (fun i => specNormalize (i.cc_mcc?.getD "") = "CC")).length
        llm_mcc := ((llmSdx combination_code_review).filter
          (fun i => specNormalize (i.cc_mcc?.getD "") = "MCC")).length } ∧
    ∀ r ∈ create_cc_mcc_comparison_data ground_truth_sdx combination_code_review,
      pyUpper r.gt_cc_mcc = "CC" ∨ pyUpper r.gt_cc_mcc = "MCC" := by
  constructor
  · unfold calculate_cc_mcc_statistics
    simp only [CcMccStats.mk.injEq]
    refine ⟨?_, ?_, ?_, ?_⟩ <;>
      rw [List.countP_eq_length_filter] <;>
      refine congrArg List.length (List.filter_congr ?_) <;>
      intro i _ <;>
      first
        | exact normSeverity_beq_tag (gtRawSeverity i) _ (by simp)
        | exact normSeverity_beq_tag (i.cc_mcc?.getD "") _ (by simp)
  · intro r hr
    unfold create_cc_mcc_comparison_data at hr
    rw [List.mem_filterMap] at hr
    obtain ⟨gt_item, _, hsome⟩ := hr
    by_cases hcond : gtRawSeverity gt_item ≠ "" ∧
        (pyUpper (gtRawSeverity gt_item) = "CC" ∨
          pyUpper (gtRawSeverity gt_item) = "MCC")
    · rw [if_pos hcond] at hsome
      obtain ⟨rfl⟩ := hsome
      rw [ccMccRowFor_gt_cc_mcc]
      exact hcond.2
    · rw [if_neg hcond] at hsome
      cases hsome

/-- C8 (amended, witness): concrete row built from severity value cc; its
raw tag upper-cases to CC. -/
theorem severity_counts_normalized_witness :
    pyUpper (⟨"A12", "cc", none, none, "Mismatch"⟩ : CcMccRow).gt_cc_mcc = "CC" ∨
    pyUpper (⟨"A12", "cc", none, none, "Mismatch"⟩ : CcMccRow).gt_cc_mcc = "MCC" := by
  have h := severity_counts_normalized [⟨some "A12", some "cc", none⟩] []
  exact h.2 ⟨"A12", "cc", none, none, "Mismatch"⟩ (by decide)

/-! ## Association-list lemmas for the code-to-severity mapping -/

/-- Dict lookup on a non-empty association list. -/
theorem lookupMap_cons (p : String × String) (m : List (String × String))
    (k : String) :
    lookupMap (p :: m) k = if p.1 == k then some p.2 else lookupMap m k := by
  by_cases h : p.1 == k
  · simp [lookupMap, List.find?_cons_of_pos, h]
  · have hb : (p.1 == k) = false := by simpa using h
    simp [lookupMap, List.find?_cons_of_neg, hb]

/-- Keys after a dict assignment: unchanged when the key is present, the key
appended at the end otherwise. -/
theorem insertLast_keys (m : List (String × String)) (k v : String) :
    (insertLast m k v).map Prod.fst =
      if k ∈ m.map Prod.fst then m.map Prod.fst else m.map Prod.fst ++ [k] := by
  induction m with
  | nil => simp [insertLast]
  | cons p rest ih =>
    by_cases h : p.1 == k
    · have hk : p.1 = k := by simpa using h
      simp [insertLast, h, hk]
    · have hk : ¬ p.1 = k := by simpa using h
      have hk2 : ¬ k = p.1 := fun h2 => hk h2.symm
      simp only [insertLast, if_neg (by simpa using h), List.map_cons, ih]
      by_cases hmem : k ∈ rest.map Prod.fst <;>
        simp [ih, hmem, hk, hk2]

/-- Lookup after a dict assignment: the assigned value at the assigned key,
the previous result elsewhere. -/
theorem insertLast_lookup (m : List (String × String)) (k v k2 : String) :
    lookupMap (insertLast m k v) k2 = if k2 = k then some v else lookupMap m k2 := by
  induction m with
  | nil =>
    by_cases h : k2 = k
    · simp [insertLast, lookupMap, h]
    · have hb : (k == k2) = false := by
        simpa using fun h2 => h h2.symm
      simp [insertLast, lookupMap, hb, h]
  | cons p rest ih =>
    by_cases h : p.1 == k
    · have hk : p.1 = k := by simpa using h
      rw [insertLast, if_pos h, lookupMap_cons, lookupMap_cons]
      by_cases h2 : k2 = k
      · simp [h2]
      · have hb2 : (k == k2) = false := by
          simpa using fun h3 => h2 h3.symm
        simp [hb2, h2, hk]
    · rw [insertLast, if_neg h, lookupMap_cons, lookupMap_cons, ih]
      by_cases hp : p.1 == k2
      · have hpk : p.1 = k2 := by simpa using hp
        have hk : ¬ p.1 = k := by simpa using h
        have h2 : ¬ k2 = k := fun h3 => hk (hpk.trans h3)
        simp [hp, h2]
      · simp [hp]

/-- First hits survive appending on the right. -/
theorem find?_append_some {α} (p : α → Bool) (l1 l2 : List α) (a : α)
    (h : l1.find? p = some a) : (l1 ++ l2).find? p = some a := by
  induction l1 with
  | nil => cases h
  | cons x t ih =>
    by_cases hx : p x
    · rw [List.find?_cons_of_pos _ hx] at h
      rw [List.cons_append, List.find?_cons_of_pos _ hx]
      exact h
    · rw [List.find?_cons_of_neg _ hx] at h
      rw [List.cons_append, List.find?_cons_of_neg _ hx]
      exact ih h

/-- Searching past a hitless prefix. -/
theorem find?_append_none {α} (p : α → Bool) (l1 l2 : List α)
    (h : l1.find? p = none) : (l1 ++ l2).find? p = l2.find? p := by
  induction l1 with
  | nil => rfl
  | cons x t ih =>
    by_cases hx : p x
    · rw [List.find?_cons_of_pos _ hx] at h
      cases h
    · rw [List.find?_cons_of_neg _ hx] at h
      rw [List.cons_append, List.find?_cons_of_neg _ hx]
      exact ih h

/-- Key of the first pair whose key satisfies a test is the first satisfying
key. -/
theorem find?_map_fst (m : List (String × String)) (p : String → Bool) :
    (m.find? (fun q => p q.1)).map Prod.fst = (m.map Prod.fst).find? p := by
  induction m with
  | nil => rfl
  | cons q rest ih =>
    by_cases h : p q.1 <;> simp [List.find?_cons, h, ih]

/-- Spec-side ordered scan as a first-hit search. -/
theorem matcherScan_eq_find? (c : String) (l : List String) :
    matcherScan c l = l.find? (fun r => sdxSpecCond c r) := by
  induction l with
  | nil => rfl
  | cons r rest ih =>
    rw [matcherScan]
    by_cases h : specStepCond c r
    · rw [if_pos h, List.find?_cons_of_pos]
      rw [sdxSpecCond_eq_specStepCond]
      exact h
    · rw [if_neg h, ih, List.find?_cons_of_neg]
      rw [sdxSpecCond_eq_specStepCond]
      simpa using h

/-- Empty reference codes never hit the specificity test. -/
theorem sdxSpecCond_empty_ref (c : String) : sdxSpecCond c "" = false := by
  have h0 : ("" : String).length = 0 := rfl
  unfold sdxSpecCond
  rw [h0]
  simp

/-- A specificity hit forces a non-empty candidate. -/
theorem sdxSpecCond_ne_empty {c r : String} (h : sdxSpecCond c r = true) :
    c ≠ "" := by
  intro hc
  subst hc
  have h0 : ("" : String).length = 0 := rfl
  unfold sdxSpecCond at h
  rw [h0] at h
  simp at h

/-- Lookup fails exactly on absent keys. -/
theorem lookupMap_eq_none_iff (m : List (String × String)) (k : String) :
    lookupMap m k = none ↔ k ∉ m.map Prod.fst := by
  induction m with
  | nil => simp [lookupMap]
  | cons p rest ih =>
    rw [lookupMap_cons]
    by_cases h : p.1 == k
    · have hpk : p.1 = k := by simpa using h
      simp [h, hpk]
    · have hne : ¬ k = p.1 := by
        intro h2
        exact absurd (by simpa using h2.symm) h
      simp [h, ih, hne]

/-- Lookup of a member pair's key under distinct keys returns that pair's
value. -/
theorem lookupMap_of_mem_nodup (m : List (String × String)) (q : String × String)
    (hq : q ∈ m) (hnd : (m.map Prod.fst).Nodup) : lookupMap m q.1 = some q.2 := by
  induction m with
  | nil => cases hq
  | cons p rest ih =>
    rw [List.map_cons, List.nodup_cons] at hnd
    rcases List.mem_cons.mp hq with rfl | hmem
    · simp [lookupMap_cons]
    · rw [lookupMap_cons]
      have hp : (p.1 == q.1) = false := by
        simp only [beq_eq_false_iff_ne, ne_eq]
        intro hpq
        exact hnd.1 (hpq ▸ List.mem_map.mpr ⟨q, hmem, rfl⟩)
      simp only [hp, Bool.false_eq_true, if_false]
      exact ih hmem hnd.2

/-- Keys stay distinct through the mapping construction. -/
theorem foldl_mapStep_keys_nodup (l : List CombItem) (m : List (String × String))
    (hm : (m.map Prod.fst).Nodup) :
    ((l.foldl mapStep m).map Prod.fst).Nodup := by
  induction l generalizing m with
  | nil => exact hm
  | cons i rest ih =>
    rw [List.foldl_cons]
    apply ih
    by_cases hce : (i.icd?.getD "" == "")
    · have hstep : mapStep m i = m := by simp [mapStep, hce]
      rw [hstep]
      exact hm
    · have hstep : mapStep m i =
          insertLast m (i.icd?.getD "") (i.cc_mcc?.getD "") := by
        simp [mapStep, hce]
      rw [hstep, insertLast_keys]
      by_cases hmem : (i.icd?.getD "") ∈ m.map Prod.fst
      · rw [if_pos hmem]
        exact hm
      · rw [if_neg hmem, List.nodup_append]
        exact ⟨hm, List.nodup_singleton _, by simp [hmem]⟩

/-- Keys of the code-to-severity mapping are distinct. -/
theorem llmIcdMapping_keys_nodup (l : List CombItem) :
    ((llmIcdMapping l).map Prod.fst).Nodup :=
  foldl_mapStep_keys_nodup l [] (by simp)

/-- Last element of a non-empty list, head fallback form. -/
theorem getLast?_cons_eq {α} (a : α) (l : List α) :
    (a :: l).getLast? = some (l.getLast?.getD a) := by
  induction l generalizing a with
  | nil => rfl
  | cons b t ih =>
    rw [List.getLast?_cons_cons, ih b]
    rfl

/-- Lookup through the mapping construction: the last assigned value of the
key, falling back to the accumulator. -/
theorem foldl_mapStep_lookup (l : List CombItem) (m : List (String × String))
    (k : String) (hk : k ≠ "") :
    lookupMap (l.foldl mapStep m) k =
      (lastValIn l k).elim (lookupMap m k) some := by
  induction l generalizing m with
  | nil => rfl
  | cons i rest ih =>
    rw [List.foldl_cons, ih (mapStep m i)]
    by_cases hik : (i.icd?.getD "" == k)
    · have hc : i.icd?.getD "" = k := by simpa using hik
      have hlv : lastValIn (i :: rest) k =
          some ((lastValIn rest k).getD (i.cc_mcc?.getD "")) := by
        unfold lastValIn
        have hfil : List.filter (fun i2 => i2.icd?.getD "" == k) (i :: rest) =
            i :: List.filter (fun i2 => i2.icd?.getD "" == k) rest := by
          simp [List.filter_cons, hik]
        rw [hfil, List.map_cons, getLast?_cons_eq]
      rw [hlv]
      have hkb : (k == "") = false := by simp [hk]
      have hstep : mapStep m i = insertLast m k (i.cc_mcc?.getD "") := by
        simp only [mapStep, hc, hkb, Bool.false_eq_true, if_false]
      rw [hstep, insertLast_lookup]
      rcases lastValIn rest k with _ | v <;> simp
    · have hlv : lastValIn (i :: rest) k = lastValIn rest k := by
        unfold lastValIn
        rw [List.filter_cons_of_neg (by simpa using hik)]
      rw [hlv]
      have hlook : lookupMap (mapStep m i) k = lookupMap m k := by
        by_cases hce : (i.icd?.getD "" == "")
        · have hstep : mapStep m i = m := by simp [mapStep, hce]
          rw [hstep]
        · have hstep : mapStep m i =
              insertLast m (i.icd?.getD "") (i.cc_mcc?.getD "") := by
            simp [mapStep, hce]
          rw [hstep, insertLast_lookup,
            if_neg (fun h2 : k = i.icd?.getD "" => by simp [h2.symm] at hik)]
      rcases lastValIn rest k with _ | v <;> simp [hlook]

/-- Lookup in the code-to-severity mapping is the last assigned value. -/
theorem llmIcdMapping_lookup (l : List CombItem) (k : String) (hk : k ≠ "") :
    lookupMap (llmIcdMapping l) k = lastValIn l k := by
  unfold llmIcdMapping
  rw [foldl_mapStep_lookup l [] k hk]
  cases h : lastValIn l k <;> simp [lookupMap]

/-- Earlier first hits on the keys survive the mapping construction. -/
theorem foldl_mapStep_find?_stable (l : List CombItem)
    (m : List (String × String)) (p : String → Bool) (a : String)
    (h : (m.map Prod.fst).find? p = some a) :
    ((l.foldl mapStep m).map Prod.fst).find? p = some a := by
  induction l generalizing m with
  | nil => exact h
  | cons i rest ih =>
    rw [List.foldl_cons]
    apply ih
    by_cases hce : (i.icd?.getD "" == "")
    · have hstep : mapStep m i = m := by simp [mapStep, hce]
      rw [hstep]
      exact h
    · have hstep : mapStep m i =
          insertLast m (i.icd?.getD "") (i.cc_mcc?.getD "") := by
        simp [mapStep, hce]
      rw [hstep, insertLast_keys]
      by_cases hmem : (i.icd?.getD "") ∈ m.map Prod.fst
      · rw [if_pos hmem]
        exact h
      · rw [if_neg hmem]
        exact find?_append_some _ _ _ _ h

/-- First hit on the mapping keys is the first hit on the source codes, for a
test that rejects the empty string, starting from a hitless accumulator. -/
theorem foldl_mapStep_find?_eq (l : List CombItem) (m : List (String × String))
    (p : String → Bool) (hp : p "" = false)
    (hm : ∀ x ∈ m.map Prod.fst, p x = false) :
    ((l.foldl mapStep m).map Prod.fst).find? p =
      (l.map (fun i => i.icd?.getD "")).find? p := by
  induction l generalizing m with
  | nil =>
    simp only [List.foldl_nil, List.map_nil, List.find?_nil]
    exact List.find?_eq_none.mpr (fun x hx => by simp [hm x hx])
  | cons i rest ih =>
    rw [List.foldl_cons, List.map_cons]
    by_cases hce : (i.icd?.getD "" == "")
    · have hc : i.icd?.getD "" = "" := by simpa using hce
      have hstep : mapStep m i = m := by simp [mapStep, hce]
      have hneg : ¬ p (i.icd?.getD "") = true := by simp [hc, hp]
      rw [hstep, List.find?_cons_of_neg _ hneg, ih m hm]
    · by_cases hpc : p (i.icd?.getD "")
      · have hmem : (i.icd?.getD "") ∉ m.map Prod.fst := by
          intro hmem
          rw [hm _ hmem] at hpc
          cases hpc
        have hstep : mapStep m i =
            insertLast m (i.icd?.getD "") (i.cc_mcc?.getD "") := by
          simp [mapStep, hce]
        have hfind : ((mapStep m i).map Prod.fst).find? p =
            some (i.icd?.getD "") := by
          rw [hstep, insertLast_keys, if_neg hmem,
            find?_append_none _ _ _
              (List.find?_eq_none.mpr (fun x hx => by simp [hm x hx])),
            List.find?_cons_of_pos _ hpc]
        rw [List.find?_cons_of_pos _ hpc]
        exact foldl_mapStep_find?_stable rest _ p _ hfind
      · have hall : ∀ x ∈ (mapStep m i).map Prod.fst, p x = false := by
          intro x hx
          have hstep : mapStep m i =
              insertLast m (i.icd?.getD "") (i.cc_mcc?.getD "") := by
            simp [mapStep, hce]
          rw [hstep, insertLast_keys] at hx
          by_cases hmem : (i.icd?.getD "") ∈ m.map Prod.fst
          · rw [if_pos hmem] at hx
            exact hm x hx
          · rw [if_neg hmem] at hx
            rcases List.mem_append.mp hx with hx2 | hx2
            · exact hm x hx2
            · have hx3 : x = i.icd?.getD "" := by simpa using hx2
              subst hx3
              simpa using hpc
        rw [List.find?_cons_of_neg _ hpc]
        exact ih (mapStep m i) hall

/-- Membership in the mapping keys through the construction. -/
theorem foldl_mapStep_mem_keys (l : List CombItem) (m : List (String × String))
    (k : String) :
    k ∈ (l.foldl mapStep m).map Prod.fst ↔
      k ∈ m.map Prod.fst ∨ (k ≠ "" ∧ k ∈ l.map (fun i => i.icd?.getD "")) := by
  induction l generalizing m with
  | nil => simp
  | cons i rest ih =>
    rw [List.foldl_cons, ih, List.map_cons]
    by_cases hce : (i.icd?.getD "" == "")
    · have hc : i.icd?.getD "" = "" := by simpa using hce
      have hstep : mapStep m i = m := by simp [mapStep, hce]
      rw [hstep, hc]
      constructor
      · rintro (h | h)
        · exact Or.inl h
        · exact Or.inr ⟨h.1, List.mem_cons_of_mem _ h.2⟩
      · rintro (h | ⟨hne, hmem⟩)
        · exact Or.inl h
        · rcases List.mem_cons.mp hmem with rfl | h2
          · exact absurd rfl hne
          · exact Or.inr ⟨hne, h2⟩
    · have hcne : ¬ i.icd?.getD "" = "" := by simpa using hce
      have hstep : mapStep m i =
          insertLast m (i.icd?.getD "") (i.cc_mcc?.getD "") := by
        simp [mapStep, hce]
      have hkeys : k ∈ (mapStep m i).map Prod.fst ↔
          k ∈ m.map Prod.fst ∨ k = i.icd?.getD "" := by
        rw [hstep, insertLast_keys]
        by_cases hmem : (i.icd?.getD "") ∈ m.map Prod.fst
        · rw [if_pos hmem]
          constructor
          · exact Or.inl
          · rintro (h | rfl)
            · exact h
            · exact hmem
        · rw [if_neg hmem]
          simp
      rw [hkeys]
      constructor
      · rintro ((h | rfl) | ⟨hne, hmem⟩)
        · exact Or.inl h
        · exact Or.inr ⟨hcne, List.mem_cons_self _ _⟩
        · exact Or.inr ⟨hne, List.mem_cons_of_mem _ hmem⟩
      · rintro (h | ⟨hne, hmem⟩)
        · exact Or.inl (Or.inl h)
        · rcases List.mem_cons.mp hmem with rfl | h2
          · exact Or.inl (Or.inr rfl)
          · exact Or.inr ⟨hne, h2⟩

/-- Membership in the code-to-severity mapping keys: exactly the non-empty
extracted codes. -/
theorem llmIcdMapping_mem_keys (l : List CombItem) (k : String) :
    k ∈ (llmIcdMapping l).map Prod.fst ↔
      k ≠ "" ∧ k ∈ l.map (fun i => i.icd?.getD "") := by
  unfold llmIcdMapping
  rw [foldl_mapStep_mem_keys]
  simp

/-- Shape of a comparison row on an exact mapping hit. -/
theorem ccMccRowFor_match (m : List (String × String)) (a b v : String)
    (hl : lookupMap m a = some v) :
    ccMccRowFor m a b = ⟨a, b, some a, some v, "Match"⟩ := by
  unfold ccMccRowFor
  rw [hl]

/-- Shape of a comparison row on a specificity hit. -/
theorem ccMccRowFor_spec (m : List (String × String)) (a b : String)
    (p : String × String) (hl : lookupMap m a = none)
    (hf : m.find? (fun q => sdxSpecCond a q.1) = some p) :
    ccMccRowFor m a b = ⟨a, b, some p.1, some p.2, "Specificity Issue"⟩ := by
  unfold ccMccRowFor
  rw [hl, hf]

/-- Shape of a comparison row with no counterpart. -/
theorem ccMccRowFor_mismatch (m : List (String × String)) (a b : String)
    (hl : lookupMap m a = none)
    (hf : m.find? (fun q => sdxSpecCond a q.1) = none) :
    ccMccRowFor m a b = ⟨a, b, none, none, "Mismatch"⟩ := by
  unfold ccMccRowFor
  rw [hl, hf]

/-- C10: when the extracted-SDX rows repeat an ICD code, the code-to-severity
mapping keeps a single entry for it (the key appears at most once), the stored
value is the last occurrence's cc/mcc value, and every comparison row whose
counterpart is that code reports that last value; duplicate occurrences are
never matched independently. -/
theorem duplicate_codes_last_value_wins (combination_code_review : List CombItem)
    (ground_truth_sdx : List GtSdxItem) (code : String) (hc : code ≠ "") :
    ((llmIcdMapping (llmSdx combination_code_review)).map Prod.fst).count code ≤ 1 ∧
    lookupMap (llmIcdMapping (llmSdx combination_code_review)) code =
      lastCcMccFor combination_code_review code ∧
    ∀ r ∈ create_cc_mcc_comparison_data ground_truth_sdx combination_code_review,
      r.llm_icd = some code →
        r.llm_cc_mcc = lastCcMccFor combination_code_review code := by
  have hnd := llmIcdMapping_keys_nodup (llmSdx combination_code_review)
  have hlook := llmIcdMapping_lookup (llmSdx combination_code_review) code hc
  refine ⟨List.nodup_iff_count_le_one.mp hnd code, hlook, ?_⟩
  intro r hr hricd
  unfold create_cc_mcc_comparison_data at hr
  rw [List.mem_filterMap] at hr
  obtain ⟨gt_item, _, hsome⟩ := hr
  by_cases hcond : gtRawSeverity gt_item ≠ "" ∧
      (pyUpper (gtRawSeverity gt_item) = "CC" ∨
        pyUpper (gtRawSeverity gt_item) = "MCC")
  · rw [if_pos hcond] at hsome
    injection hsome with hrow
    subst hrow
    rcases hl : lookupMap (llmIcdMapping (llmSdx combination_code_review))
        (gt_item.icd_code?.getD "") with _ | v
    · rcases hf : (llmIcdMapping (llmSdx combination_code_review)).find?
          (fun q => sdxSpecCond (gt_item.icd_code?.getD "") q.1) with _ | p
      · rw [ccMccRowFor_mismatch _ _ _ hl hf] at hricd
        cases hricd
      · rw [ccMccRowFor_spec _ _ _ p hl hf] at hricd ⊢
        have hpcode : p.1 = code := by
          injection hricd
        simp only [lastCcMccFor]
        rw [← hlook, ← hpcode]
        exact (lookupMap_of_mem_nodup _ p (List.mem_of_find?_eq_some hf) hnd).symm
    · rw [ccMccRowFor_match _ _ _ v hl] at hricd ⊢
      have hacode : gt_item.icd_code?.getD "" = code := by
        injection hricd
      simp only [lastCcMccFor]
      rw [← hlook, ← hacode, hl]
  · rw [if_neg hcond] at hsome
    cases hsome

/-- C10 (witness): extracted-SDX rows repeat code A12 with values CC then MCC;
the mapping holds one entry for A12 whose value MCC (the last occurrence)
appears on the matching comparison row. -/
theorem duplicate_codes_last_value_wins_witness :
    ((llmIcdMapping (llmSdx [⟨some "SDX", some "A12", some "CC"⟩,
        ⟨some "SDX", some "A12", some "MCC"⟩])).map Prod.fst).count "A12" ≤ 1 ∧
    lookupMap (llmIcdMapping (llmSdx [⟨some "SDX", some "A12", some "CC"⟩,
        ⟨some "SDX", some "A12", some "MCC"⟩])) "A12" =
      lastCcMccFor [⟨some "SDX", some "A12", some "CC"⟩,
        ⟨some "SDX", some "A12", some "MCC"⟩] "A12" ∧
    (⟨"A12", "MCC", some "A12", some "MCC", "Match"⟩ : CcMccRow).llm_cc_mcc =
      lastCcMccFor [⟨some "SDX", some "A12", some "CC"⟩,
        ⟨some "SDX", some "A12", some "MCC"⟩] "A12" := by
  have h := duplicate_codes_last_value_wins
    [⟨some "SDX", some "A12", some "CC"⟩, ⟨some "SDX", some "A12", some "MCC"⟩]
    [⟨some "A12", some "MCC", none⟩] "A12" (by decide)
  exact ⟨h.1, h.2.1,
    h.2.2 ⟨"A12", "MCC", some "A12", some "MCC", "Match"⟩ (by decide) (by decide)⟩

/-- Ground-truth code of a comparison row is the candidate it was built from,
whatever the match outcome. -/
theorem ccMccRowFor_gt_icd (m : List (String × String)) (a b : String) :
    (ccMccRowFor m a b).gt_icd = a := by
  unfold ccMccRowFor
  cases hl : lookupMap m a with
  | some v => rfl
  | none =>
    cases hf : m.find? (fun p => sdxSpecCond a p.1) with
    | some p => rfl
    | none => rfl

/-- Row-selection condition of the comparator, stated with the normalized
severity: a row is emitted exactly when the normalized tag is CC or MCC. -/
theorem keep_cond_iff (i : GtSdxItem) :
    (gtRawSeverity i ≠ "" ∧ (pyUpper (gtRawSeverity i) = "CC" ∨
        pyUpper (gtRawSeverity i) = "MCC")) ↔
      (gtSeverity i == "CC" || gtSeverity i == "MCC") = true := by
  unfold gtSeverity
  by_cases hv : gtRawSeverity i = ""
  · have h1 : (("" : String) == "CC") = false := by decide
    have h2 : (("" : String) == "MCC") = false := by decide
    simp [hv, h1, h2]
  · have hvb : (gtRawSeverity i == "") = false := by simpa using hv
    simp [hv, hvb]

/-- Guarded filterMap as a map over a filter. -/
theorem filterMap_ite_eq_map_filter {α β} (p : α → Prop) [DecidablePred p]
    (q : α → Bool) (f : α → β) (l : List α) (hpq : ∀ a, p a ↔ q a = true) :
    l.filterMap (fun a => if p a then some (f a) else none) = (l.filter q).map f := by
  induction l with
  | nil => rfl
  | cons a t ih =>
    rw [List.filterMap_cons, List.filter_cons]
    by_cases h : p a
    · rw [if_pos h, if_pos ((hpq a).mp h), List.map_cons, ih]
    · rw [if_neg h, if_neg (fun hq => h ((hpq a).mpr hq)), ih]

/-- Counterpart and match kind of one comparison row agree with the spec-side
Code Matcher run against all extracted-SDX codes. -/
theorem ccMccRowFor_matches_classify (combination_code_review : List CombItem)
    (a b : String) :
    (ccMccRowFor (llmIcdMapping (llmSdx combination_code_review)) a b).llm_icd =
      (classify a (extractedSdxCodes combination_code_review)).2 ∧
    (ccMccRowFor (llmIcdMapping (llmSdx combination_code_review)) a b).match_type =
      rowStatus (classify a (extractedSdxCodes combination_code_review)).1 := by
  have hmem : ∀ k, k ∈ (llmIcdMapping (llmSdx combination_code_review)).map Prod.fst ↔
      (k ≠ "" ∧ k ∈ extractedSdxCodes combination_code_review) := fun k =>
    llmIcdMapping_mem_keys _ k
  have hfindeq : ∀ c : String,
      ((llmIcdMapping (llmSdx combination_code_review)).map Prod.fst).find?
          (fun r => sdxSpecCond c r) =
        (extractedSdxCodes combination_code_review).find?
          (fun r => sdxSpecCond c r) := fun c =>
    foldl_mapStep_find?_eq (llmSdx combination_code_review) []
      (fun r => sdxSpecCond c r) (sdxSpecCond_empty_ref c) (by simp)
  rcases hl : lookupMap (llmIcdMapping (llmSdx combination_code_review)) a with _ | v
  · have hanotm : a ∉ (llmIcdMapping (llmSdx combination_code_review)).map Prod.fst :=
      (lookupMap_eq_none_iff _ a).mp hl
    rcases hf : (llmIcdMapping (llmSdx combination_code_review)).find?
        (fun q => sdxSpecCond a q.1) with _ | p
    · rw [ccMccRowFor_mismatch _ _ _ hl hf]
      have hcl : classify a (extractedSdxCodes combination_code_review) =
          (.MISMATCH, none) := by
        unfold classify
        by_cases hguard : a = "" ∨ extractedSdxCodes combination_code_review = []
        · rw [if_pos hguard]
        · rw [if_neg hguard]
          push_neg at hguard
          have hanotrefs : a ∉ extractedSdxCodes combination_code_review :=
            fun hmem2 => hanotm ((hmem a).mpr ⟨hguard.1, hmem2⟩)
          rw [if_neg hanotrefs, matcherScan_eq_find?, ← hfindeq a, ← find?_map_fst,
            hf]
          rfl
      rw [hcl]
      exact ⟨rfl, rfl⟩
    · rw [ccMccRowFor_spec _ _ _ p hl hf]
      have hps : sdxSpecCond a p.1 = true := by
        have h2 := List.find?_some hf
        simpa using h2
      have hane : a ≠ "" := sdxSpecCond_ne_empty hps
      have hpmem : p.1 ∈ (llmIcdMapping (llmSdx combination_code_review)).map Prod.fst :=
        List.mem_map.mpr ⟨p, List.mem_of_find?_eq_some hf, rfl⟩
      have hrefsne : extractedSdxCodes combination_code_review ≠ [] :=
        List.ne_nil_of_mem ((hmem p.1).mp hpmem).2
      have hanotrefs : a ∉ extractedSdxCodes combination_code_review :=
        fun hmem2 => hanotm ((hmem a).mpr ⟨hane, hmem2⟩)
      have hcl : classify a (extractedSdxCodes combination_code_review) =
          (.SPECIFICITY_ISSUE, some p.1) := by
        unfold classify
        rw [if_neg (by push_neg; exact ⟨hane, hrefsne⟩), if_neg hanotrefs,
          matcherScan_eq_find?, ← hfindeq a, ← find?_map_fst, hf]
        rfl
      rw [hcl]
      exact ⟨rfl, rfl⟩
  · rw [ccMccRowFor_match _ _ _ v hl]
    have hamem : a ∈ (llmIcdMapping (llmSdx combination_code_review)).map Prod.fst := by
      by_contra hno
      rw [← lookupMap_eq_none_iff] at hno
      rw [hl] at hno
      cases hno
    obtain ⟨hane, harefs⟩ := (hmem a).mp hamem
    have hcl : classify a (extractedSdxCodes combination_code_review) =
        (.MATCH, some a) := by
      unfold classify
      rw [if_neg (by push_neg; exact ⟨hane, List.ne_nil_of_mem harefs⟩),
        if_pos harefs]
    rw [hcl]
    exact ⟨rfl, rfl⟩

/-- C3: the severity comparator emits exactly one row per ground-truth-SDX
record whose normalized severity tag is CC or MCC (NONE records produce no
row), in the ground-truth input order, and each row's counterpart and match
kind are the result of the Code Matcher run with the ground-truth code as
candidate against all extracted-SDX codes as references; a Match row's
counterpart is the identical code itself. -/
theorem severity_rows_follow_matcher (ground_truth_sdx : List GtSdxItem)
    (combination_code_review : List CombItem) :
    (create_cc_mcc_comparison_data ground_truth_sdx combination_code_review).map
      (fun r => (r.gt_icd, r.llm_icd, r.match_type)) =
    (ground_truth_sdx.filter
      (fun i => gtSeverity i == "CC" || gtSeverity i == "MCC")).map
      (fun i =>
        (i.icd_code?.getD "",
         (classify (i.icd_code?.getD "")
           (extractedSdxCodes combination_code_review)).2,
         rowStatus (classify (i.icd_code?.getD "")
           (extractedSdxCodes combination_code_review)).1)) ∧
    ∀ r ∈ create_cc_mcc_comparison_data ground_truth_sdx combination_code_review,
      r.match_type = "Match" → r.llm_icd = some r.gt_icd := by
  have hrows : create_cc_mcc_comparison_data ground_truth_sdx combination_code_review =
      (ground_truth_sdx.filter
        (fun i => gtSeverity i == "CC" || gtSeverity i == "MCC")).map
        (fun i => ccMccRowFor (llmIcdMapping (llmSdx combination_code_review))
          (i.icd_code?.getD "") (gtRawSeverity i)) := by
    unfold create_cc_mcc_comparison_data
    exact filterMap_ite_eq_map_filter _ _ _ _ keep_cond_iff
  constructor
  · rw [hrows, List.map_map]
    refine List.map_congr_left ?_
    intro i _
    obtain ⟨h1, h2⟩ := ccMccRowFor_matches_classify combination_code_review
      (i.icd_code?.getD "") (gtRawSeverity i)
    simp [Function.comp, ccMccRowFor_gt_icd, h1, h2]
  · intro r hr hmatch
    rw [hrows, List.mem_map] at hr
    obtain ⟨i, _, rfl⟩ := hr
    rcases hl : lookupMap (llmIcdMapping (llmSdx combination_code_review))
        (i.icd_code?.getD "") with _ | v
    · rcases hf : (llmIcdMapping (llmSdx combination_code_review)).find?
          (fun q => sdxSpecCond (i.icd_code?.getD "") q.1) with _ | p
      · rw [ccMccRowFor_mismatch _ _ _ hl hf] at hmatch
        have hne : ("Mismatch" : String) ≠ "Match" := by decide
        exact absurd hmatch hne
      · rw [ccMccRowFor_spec _ _ _ p hl hf] at hmatch
        have hne : ("Specificity Issue" : String) ≠ "Match" := by decide
        exact absurd hmatch hne
    · rw [ccMccRowFor_match _ _ _ v hl]

/-- C3 (witness): one CC-tagged ground-truth record with an exactly matching
extracted code produces exactly one Match row whose counterpart is the code
itself. -/
theorem severity_rows_follow_matcher_witness :
    (create_cc_mcc_comparison_data [⟨some "A01", some "CC", none⟩]
        [⟨some "SDX", some "A01", some "CC"⟩]).map
      (fun r => (r.gt_icd, r.llm_icd, r.match_type)) =
      [("A01", some "A01", "Match")] ∧
    (⟨"A01", "CC", some "A01", some "CC", "Match"⟩ : CcMccRow).llm_icd =
      some (⟨"A01", "CC", some "A01", some "CC", "Match"⟩ : CcMccRow).gt_icd := by
  have h := severity_rows_follow_matcher [⟨some "A01", some "CC", none⟩]
    [⟨some "SDX", some "A01", some "CC"⟩]
  exact ⟨h.1.trans (by decide),
    h.2 ⟨"A01", "CC", some "A01", some "CC", "Match"⟩ (by decide) (by decide)⟩

end SdxAudit
